import Mathlib

/-!
# Verification of the Pixiboo button/IMU core

Shallow embedding of the button event-dispatch subsystem and the
IMU shake-detection logic of the `pixiboo` MicroPython package
(`pixiboo/buttons.py`, `pixiboo/accelerometer.py`).

Conventions:
* machine integers are `Int`/`Nat` (MicroPython integers are unbounded);
* timestamps are `Int` milliseconds, with `ticks_diff a b = a - b`
  (the host fallback; on-device wraparound is outside the claims);
* hardware reads (pin levels, I2C register blocks, IMU samples) are
  passed in explicitly as inputs, so every stateful method becomes a
  pure state-transition function.
-/

namespace Pixiboo

/-! ## Accelerometer: raw register decoding (`Accelerometer._read_mpu6050`) -/

/-- Twos-complement conversion used in every `_read_*` routine:
`if x > 32767: x -= 65536`. -/
def toSigned16 (v : Nat) : Int :=
  if v > 32767 then (v : Int) - 65536 else (v : Int)

/-- The raw-to-milli-g scaling `int(x * 0.122)` of the MPU6050/LSM6DS3
read paths.  The Python builtin `int` truncates toward zero; for every
16-bit signed input the double-precision product `x * 0.122` truncates
to the same integer as the exact rational `x * 122 / 1000`, so the
scaling is embedded as a truncating rational division. -/
def mgScale122 (x : Int) : Int :=
  Int.tdiv (x * 122) 1000

/-- Embedding of `Accelerometer._read_mpu6050`, applied to the 6 bytes
read from register `ACCEL_XOUT_H`: the code assembles each axis as
`(data[0] << 8) | data[1]` (high byte first), sign-extends, and scales
by 0.122 to milli-g. -/
def readMpu6050 (d0 d1 d2 d3 d4 d5 : Nat) : Int × Int × Int :=
  let x := toSigned16 ((d0 <<< 8) ||| d1)
  let y := toSigned16 ((d2 <<< 8) ||| d3)
  let z := toSigned16 ((d4 <<< 8) ||| d5)
  (mgScale122 x, mgScale122 y, mgScale122 z)

/-- Embedding of `Accelerometer._read_lsm6ds3`: same decoding but low
byte first (`(data[1] << 8) | data[0]`). -/
def readLsm6ds3 (d0 d1 d2 d3 d4 d5 : Nat) : Int × Int × Int :=
  let x := toSigned16 ((d1 <<< 8) ||| d0)
  let y := toSigned16 ((d3 <<< 8) ||| d2)
  let z := toSigned16 ((d5 <<< 8) ||| d4)
  (mgScale122 x, mgScale122 y, mgScale122 z)

/-! ## Accelerometer: calibration (`Accelerometer.calibrate`, `get_values`) -/

/-- Embedding of `Accelerometer.calibrate`: sums the 10 raw samples per axis, then
`offset = sum // samples` (Python floor division) for X and Y and
`sum // samples - 1000` for Z.  The 10 raw readings taken by the loop
are passed in as a list. -/
def calibrateOffsets (reads : List (Int × Int × Int)) : Int × Int × Int :=
  let sumX := (reads.map (·.1)).sum
  let sumY := (reads.map (·.2.1)).sum
  let sumZ := (reads.map (·.2.2)).sum
  (Int.fdiv sumX 10, Int.fdiv sumY 10, Int.fdiv sumZ 10 - 1000)

/-- Embedding of `Accelerometer.get_values`: reads one raw sample and
subtracts the stored calibration offsets componentwise. -/
def getValues (raw off : Int × Int × Int) : Int × Int × Int :=
  (raw.1 - off.1, raw.2.1 - off.2.1, raw.2.2 - off.2.2)

/-! ## Buttons: debounced polling (`Buttons._pressed`)

Per-button debounce record: the entries of `Buttons._last_state` and
`Buttons._last_time` for one button name. -/

structure BtnState where
  lastState : Nat
  lastTime : Int
deriving DecidableEq, Repr

/-- Embedding of `Buttons._pressed` for one button: the pin level read
and the `ticks_ms` value at the call are inputs.  The source returns
true only on a high-to-low reading at least `debounce_ms` after the
previous recorded time, and stores `value`/`now` into
`_last_state`/`_last_time` on *every* call (both branches). -/
def pressedStep (debounceMs : Int) (s : BtnState) (value : Nat) (now : Int) :
    Bool × BtnState :=
  if value = 0 ∧ s.lastState = 1 ∧ now - s.lastTime ≥ debounceMs then
    (true, { lastState := value, lastTime := now })
  else
    (false, { lastState := value, lastTime := now })

/-- A sequence of `_pressed` calls on one button: each trace element is
the pin level read and the `ticks_ms` value of that call. -/
def pressedRun (debounceMs : Int) : BtnState → List (Nat × Int) → List Bool
  | _, [] => []
  | s, (v, t) :: rest =>
    (pressedStep debounceMs s v t).1 ::
      pressedRun debounceMs (pressedStep debounceMs s v t).2 rest

/-- Specification-side edge detector: report exactly the polls whose
reading is low while the previously recorded level was high. -/
def edgeRun (prev : Nat) : List (Nat × Int) → List Bool
  | [] => []
  | (v, _) :: rest => (decide (prev = 1 ∧ v = 0)) :: edgeRun v rest

/-- Poll spacing: every poll in the trace happens at least `d`
milliseconds after the previous poll (whose time is `t0`). -/
def spacedB (d : Int) : Int → List (Nat × Int) → Bool
  | _, [] => true
  | t0, (_, t) :: rest => decide (t - t0 ≥ d) && spacedB d t rest

/-! ## Accelerometer: shake detection (`Accelerometer.was_shaken`) -/

/-- The shake-detection fields of `Accelerometer`:
`_shake_threshold`, `_shake_debounce_ms`, `_last_shake_time`,
`_shake_detected`.  The constructor sets threshold 1500, debounce 500,
last shake time 0 and detected false. -/
structure ShakeState where
  threshold : Int
  debounceMs : Int
  lastShakeTime : Int
  detected : Bool
deriving DecidableEq, Repr

/-- One calibrated IMU sample together with the `ticks_ms` value of the
`was_shaken` call that consumes it. -/
structure Sample where
  x : Int
  y : Int
  z : Int
  t : Int
deriving DecidableEq, Repr

/-- Embedding of one `Accelerometer.was_shaken` call on a sample: if the
squared magnitude exceeds the squared threshold and at least
`_shake_debounce_ms` elapsed since `_last_shake_time`, the code sets
`_shake_detected = True` and records the time; it then returns the flag
and clears it, all within the same call. -/
def shakeStep (s : ShakeState) (p : Sample) : Bool × ShakeState :=
  let magnitudeSquared := p.x * p.x + p.y * p.y + p.z * p.z
  let thresholdSquared := s.threshold * s.threshold
  let s1 :=
    if magnitudeSquared > thresholdSquared ∧ p.t - s.lastShakeTime ≥ s.debounceMs then
      { s with detected := true, lastShakeTime := p.t }
    else s
  (s1.detected, { s1 with detected := false })

/-- A sequence of `was_shaken` calls over a list of samples. -/
def shakeRun : ShakeState → List Sample → List Bool
  | _, [] => []
  | s, p :: rest => (shakeStep s p).1 :: shakeRun (shakeStep s p).2 rest

/-- The `Accelerometer.__init__` values of the shake-detection fields. -/
def shakeInit : ShakeState :=
  { threshold := 1500, debounceMs := 500, lastShakeTime := 0, detected := false }

/-- The synthetic reading sequence of the shake-detector claim:
10 samples of magnitude 0, one sample at twice the default threshold
(3000 mg on X), then magnitude 0 again.  The spike call happens at
t = 600, after the 500 ms debounce window from the initial
`_last_shake_time = 0` has passed. -/
def spikeTrace : List Sample :=
  [⟨0, 0, 0, 0⟩, ⟨0, 0, 0, 10⟩, ⟨0, 0, 0, 20⟩, ⟨0, 0, 0, 30⟩, ⟨0, 0, 0, 40⟩,
   ⟨0, 0, 0, 50⟩, ⟨0, 0, 0, 60⟩, ⟨0, 0, 0, 70⟩, ⟨0, 0, 0, 80⟩, ⟨0, 0, 0, 90⟩,
   ⟨3000, 0, 0, 600⟩, ⟨0, 0, 0, 610⟩]

/-! ## IMU device detection (`Accelerometer._detect_imu`)

The module-level address constants of `accelerometer.py`. -/

def BNO055_ADDR : Nat := 0x28

def BNO055_ADDR_ALT : Nat := 0x29

def MPU6050_ADDR : Nat := 0x68

def MPU6050_ADDR_ALT : Nat := 0x69

def LSM6DS3_ADDR : Nat := 0x6A

/-- The `_imu_type` strings of the source, as an enumeration. -/
inductive ImuType where
  | bno055
  | mpu6050
  | lsm6ds3
deriving DecidableEq, Repr

/-- The two distinct `RuntimeError` outcomes of `_detect_imu`: the
empty-scan error (`No accelerometer detected on I2C bus`) and the
unknown-address error (`Unknown accelerometer at address ...`). -/
inductive DetectError where
  | noDeviceFound
  | unknownDevice
deriving DecidableEq, Repr

/-- Embedding of `Accelerometer._detect_imu` on the list of addresses
returned by the bus scan: empty scan fails with the no-device error;
otherwise the fixed `if/elif` chain picks BNO055 at 0x28, BNO055 at
0x29, MPU6050 at 0x68, MPU6050 at 0x69, LSM6DS3 at 0x6A, first match
winning, and runs the matching `_init_*` protocol for the selected
kind; an address set matching none of these fails with the
unknown-device error. -/
def detectImu (devices : List Nat) : Except DetectError (Nat × ImuType) :=
  if devices = [] then .error .noDeviceFound
  else if BNO055_ADDR ∈ devices then .ok (BNO055_ADDR, .bno055)
  else if BNO055_ADDR_ALT ∈ devices then .ok (BNO055_ADDR_ALT, .bno055)
  else if MPU6050_ADDR ∈ devices then .ok (MPU6050_ADDR, .mpu6050)
  else if MPU6050_ADDR_ALT ∈ devices then .ok (MPU6050_ADDR_ALT, .mpu6050)
  else if LSM6DS3_ADDR ∈ devices then .ok (LSM6DS3_ADDR, .lsm6ds3)
  else .error .unknownDevice

/-! ## Callback dispatch boundaries (`Buttons._make_irq_handler`,
`Buttons.update`, `on_shake`) -/

/-- A user callback: acts on a caller-owned world state `ω` and may
raise an exception carrying a value of type `ε`. -/
def Cb (ω ε : Type) : Type := ω → ω × Option ε

/-- The same callback with its exception suppressed: it performs the
same world updates but no longer raises. -/
def silence {ω ε : Type} (c : Cb ω ε) : Cb ω ε :=
  fun w => ((c w).1, none)

/-- The dispatch loop shared by all three boundaries:
`for callback in ...:` with `try: callback()` and an `except` clause
that reports the error — every callback is invoked in order, a raised
exception is recorded and the loop continues with the next callback.
Returns the final world and the reported exceptions in order. -/
def runCallbacks {ω ε : Type} : ω → List (Cb ω ε) → ω × List ε
  | w, [] => (w, [])
  | w, c :: rest =>
    ((runCallbacks (c w).1 rest).1,
      (c w).2.toList ++ (runCallbacks (c w).1 rest).2)

/-- Embedding of the closure built by `Buttons._make_irq_handler`: an
interrupt within the debounce window is discarded; otherwise
`_last_time` is updated *before* the callbacks run, then every
registered callback for the button runs inside `try/except`.  Returns
the new `_last_time`, the world after the callbacks, and the reported
errors. -/
def irqHandler {ω ε : Type} (debounceMs lastTime : Int) (cbs : List (Cb ω ε))
    (now : Int) (w : ω) : Int × ω × List ε :=
  if now - lastTime < debounceMs then (lastTime, w, [])
  else (now, (runCallbacks w cbs).1, (runCallbacks w cbs).2)

/-- Embedding of one iteration of the `on_shake` monitoring loop: when
`was_shaken()` returned true, the single registered callback runs
inside `try/except` and the error, if any, is reported. -/
def shakeLoopBody {ω ε : Type} (shaken : Bool) (cb : Cb ω ε) (w : ω) :
    ω × List ε :=
  if shaken then ((cb w).1, (cb w).2.toList) else (w, [])

/-- The three keys of `Buttons._pins`, as an enumeration. -/
inductive BtnName where
  | left
  | center
  | right
deriving DecidableEq, Repr

/-- The `_last_state`/`_last_time` entries for all three buttons. -/
structure PollSt where
  left : BtnState
  center : BtnState
  right : BtnState
deriving DecidableEq, Repr

def getB (s : PollSt) : BtnName → BtnState
  | .left => s.left
  | .center => s.center
  | .right => s.right

def setB (s : PollSt) : BtnName → BtnState → PollSt
  | .left, b => { s with left := b }
  | .center, b => { s with center := b }
  | .right, b => { s with right := b }

/-- One button of the `Buttons.update` loop: `_pressed` runs with the
pin level and time of that read, and when it reports a press the
registered callbacks of that button run with exceptions swallowed
(`except Exception: pass`). -/
def updateButton {ω ε : Type} (d : Int) (bs : BtnState) (read : Nat × Int)
    (cbs : List (Cb ω ε)) (w : ω) : BtnState × ω :=
  let r := pressedStep d bs read.1 read.2
  if r.1 then (r.2, (runCallbacks w cbs).1) else (r.2, w)

/-- Embedding of `Buttons.update`: iterates the buttons in dictionary
insertion order (left, center, right). -/
def updateDispatch {ω ε : Type} (d : Int) (s : PollSt)
    (reads : BtnName → Nat × Int) (cbs : BtnName → List (Cb ω ε)) (w : ω) :
    PollSt × ω :=
  let l := updateButton d s.left (reads .left) (cbs .left) w
  let c := updateButton d s.center (reads .center) (cbs .center) l.2
  let r := updateButton d s.right (reads .right) (cbs .right) c.2
  ({ left := l.1, center := c.1, right := r.1 }, r.2)

/-- The callback loop of `Buttons.update` with its report stream made
explicit: the source catches with `except Exception: pass`, so every
callback still runs in order but the except branch contributes nothing
to the reports — unlike the interrupt handler and the shake loop,
whose except branches print the error. -/
def runCallbacksPass {ω ε : Type} : ω → List (Cb ω ε) → ω × List ε
  | w, [] => (w, [])
  | w, c :: rest =>
    ((runCallbacksPass (c w).1 rest).1, (runCallbacksPass (c w).1 rest).2)

/-- One button of `Buttons.update` with the reported errors exposed:
identical to `updateButton` except that the (always empty) report
stream of the `except Exception: pass` clause is returned as well. -/
def updateButtonRep {ω ε : Type} (d : Int) (bs : BtnState) (read : Nat × Int)
    (cbs : List (Cb ω ε)) (w : ω) : BtnState × ω × List ε :=
  let r := pressedStep d bs read.1 read.2
  if r.1 then (r.2, (runCallbacksPass w cbs).1, (runCallbacksPass w cbs).2)
  else (r.2, w, [])

/-! ## Public string-keyed interface (`Buttons.is_pressed`,
`Buttons.on_button_pressed`) -/

/-- The keys of `Buttons._pins`, in insertion order. -/
def btnNames : List String := ["left", "center", "right"]

/-- Embedding of `Buttons.is_pressed`, instrumented with the list of
pins read: an unknown name returns false before touching any pin;
otherwise the named pin is read (its level is the `level` input) and
compared against 0 (active-low, pull-up configuration). -/
def isPressedReads (button : String) (level : Nat) : Bool × List String :=
  if button ∈ btnNames then (decide (level = 0), [button]) else (false, [])

/-- One interleaved operation on a `Buttons` object: a debounced poll
(`left_pressed`/`center_pressed`/`right_pressed`) with the pin level
and time it observes, or an `is_pressed` query with the level its pin
would read. -/
inductive BOp where
  | press (b : BtnName) (value : Nat) (now : Int)
  | isP (name : String) (level : Nat)

/-- Run a list of interleaved operations, returning each call result in
order together with the final debounce state. -/
def runBOps (d : Int) : PollSt → List BOp → List Bool × PollSt
  | s, [] => ([], s)
  | s, .press b v t :: rest =>
    ((pressedStep d (getB s b) v t).1 ::
        (runBOps d (setB s b (pressedStep d (getB s b) v t).2) rest).1,
      (runBOps d (setB s b (pressedStep d (getB s b) v t).2) rest).2)
  | s, .isP n lv :: rest =>
    ((isPressedReads n lv).1 :: (runBOps d s rest).1, (runBOps d s rest).2)

def isPollOp : BOp → Bool
  | .press _ _ _ => true
  | .isP _ _ => false

/-- Select, from the list of all call results, those belonging to the
poll operations. -/
def selectPoll : List BOp → List Bool → List Bool
  | [], _ => []
  | _ :: _, [] => []
  | op :: ops, r :: rs =>
    if isPollOp op then r :: selectPoll ops rs else selectPoll ops rs

/-- The registration fields of `Buttons`: the `_callbacks` list per
name, `_irq_enabled`, and `auto_update`.  The callback representation
`κ` is abstract. -/
structure RegSt (κ : Type) where
  cbLeft : List κ
  cbCenter : List κ
  cbRight : List κ
  irqEnabled : Bool
  autoUpdate : Bool
deriving DecidableEq

/-- The append `self._callbacks[button].append(callback)` for a known
button name. -/
def appendCb {κ : Type} (s : RegSt κ) (button : String) (cb : κ) : RegSt κ :=
  if button = "left" then { s with cbLeft := s.cbLeft ++ [cb] }
  else if button = "center" then { s with cbCenter := s.cbCenter ++ [cb] }
  else { s with cbRight := s.cbRight ++ [cb] }

/-- Embedding of `Buttons.on_button_pressed`: an unknown name returns
without any state change; otherwise the callback is appended to that
buttons list, and if `auto_update` is set and interrupts are not yet
armed, `_setup_interrupts` arms them (`_irq_enabled = True`). -/
def onButtonPressed {κ : Type} (s : RegSt κ) (button : String) (cb : κ) : RegSt κ :=
  if button ∈ btnNames then
    let s1 := appendCb s button cb
    if s1.autoUpdate && !s1.irqEnabled then { s1 with irqEnabled := true } else s1
  else s

end Pixiboo

namespace Pixiboo

/-- C1.
The claim reads the MPU6050 acceleration block as little-endian, so
that bytes `[0x00, 0x40]` on one axis decode to 16384 and yield
≈2000 mg.  The code (`_read_mpu6050`) assembles `(data[0] << 8) | data[1]`,
i.e. big-endian: bytes `[0x00, 0x40]` decode to 64 and yield 7 mg. -/
theorem mpu6050_little_endian_cex :
    readMpu6050 0x00 0x40 0 0 0 0 = (7, 0, 0) ∧ ((7 : Int) ≠ 1998) := by
  constructor
  · decide
  · decide

/-- C1 (amended).
`_read_mpu6050` decodes each axis big-endian (high byte first): raw
bytes `[0x40, 0x00]` (0x4000 = 16384) with zero calibration offsets
yield 1998 mg (`int(16384 * 0.122)`), and the little-endian LSM6DS3
path, which uses the same 0.122 scaling, gives the same 1998 mg for
the byte order `[0x00, 0x40]`.  (The BNO055 path is also
little-endian but scales by 1.02 and is not covered here.) -/
theorem mpu6050_big_endian_scaling :
    readMpu6050 0x40 0x00 0 0 0 0 = (1998, 0, 0) ∧
    readLsm6ds3 0x00 0x40 0 0 0 0 = (1998, 0, 0) := by
  constructor
  · decide
  · decide

/-- C2 (counterexample).
Calibrating on 10 identical raw readings `(100, -50, 1020)` stores
offsets `(100, -50, 20)`; a subsequent `get_values` on the same raw
reading returns `(0, 0, 1000)` — not `(0, 0, 20)` as claimed (the Z
axis keeps reading ≈1 g after calibration; only 20 mg of bias is
removed). -/
theorem calibrate_z_cex :
    getValues (100, -50, 1020)
        (calibrateOffsets (List.replicate 10 (100, -50, 1020))) = (0, 0, 1000) ∧
    ((0 : Int), (0 : Int), (1000 : Int)) ≠ ((0 : Int), (0 : Int), (20 : Int)) := by
  constructor
  · decide
  · decide

/-- C2 (amended).
For every device kind, after `calibrate()` observes 10 identical raw
readings `(x, y, z)`, a subsequent `get_values` on the same raw
reading returns exactly `(0, 0, 1000)`: the X/Y averages become the
X/Y offsets directly, and the Z average minus 1000 becomes the Z
offset, so the calibrated Z reading is pinned to 1000 mg. -/
theorem calibrate_identical_reads (x y z : Int) :
    getValues (x, y, z) (calibrateOffsets (List.replicate 10 (x, y, z))) =
      (0, 0, 1000) := by
  have hrep : ∀ a : Int, (List.replicate 10 a).sum = 10 * a := by
    intro a
    simp [List.sum_replicate]
    ring
  have hdiv : ∀ a : Int, Int.fdiv (10 * a) 10 = a := by
    intro a
    rw [Int.mul_fdiv_cancel_left a (by decide)]
  simp only [calibrateOffsets, getValues, List.map_replicate]
  simp only [hrep, hdiv]
  simp [Prod.ext_iff]

end Pixiboo

namespace Pixiboo

/-! ## Button debounce theorems -/

/-- Helper: `_pressed` stores the read level and the current time on
both branches, so the step always yields state `⟨value, now⟩`. -/
theorem pressedStep_snd (d : Int) (s : BtnState) (v : Nat) (t : Int) :
    (pressedStep d s v t).2 = ⟨v, t⟩ := by
  unfold pressedStep
  split <;> rfl

/-- C3 (counterexample).
Both halves of the claim fail on `Buttons._pressed`, because the code
refreshes `_last_time` on every poll.  First trace: the level is high
until a single genuine press at t = 60 (no other level change, so the
spacing premise holds vacuously), but polls at t = 30, 70, 110 report
nothing at all — the t = 70 poll sees only 40 ms since the t = 30 poll:
a well-spaced press is lost because polling was frequent.  Second
trace: level changes at t = 100 (press), t = 110 (release), t = 120
(press) are spaced 10 ms < 50 ms apart, yet polls at t = 55, 105, 112,
165 report two presses. -/
theorem poll_frequency_cex :
    pressedRun 50 ⟨1, 0⟩ [(1, 30), (0, 70), (0, 110)] = [false, false, false] ∧
    pressedRun 50 ⟨1, 0⟩ [(1, 55), (0, 105), (1, 112), (0, 165)] =
      [false, true, false, true] := by
  constructor
  · decide
  · decide

/-- C3 (amended).
Debounced polling is correct only relative to the poll times: whenever
every poll happens at least `debounce_ms` after the previous poll (the
code refreshes `_last_time` on every poll, so the window is measured
from the previous poll, not from the last level change), the sequence
of poll results is exactly the high-to-low edge detector on the polled
levels — each observed press is reported exactly once, and a bouncing
or repeated low reading is never reported twice.  Polls spaced closer
than `debounce_ms` can suppress genuine presses. -/
theorem poll_spaced_edge_detection (d : Int) (s : BtnState) (tr : List (Nat × Int))
    (h : spacedB d s.lastTime tr = true) :
    pressedRun d s tr = edgeRun s.lastState tr := by
  induction tr generalizing s with
  | nil => rfl
  | cons p rest ih =>
    obtain ⟨v, t⟩ := p
    simp only [spacedB, Bool.and_eq_true, decide_eq_true_eq] at h
    obtain ⟨h1, h2⟩ := h
    have hrec : pressedRun d s ((v, t) :: rest) =
        (pressedStep d s v t).1 :: pressedRun d (pressedStep d s v t).2 rest := rfl
    rw [hrec, pressedStep_snd]
    have hrest : pressedRun d (⟨v, t⟩ : BtnState) rest = edgeRun v rest := ih ⟨v, t⟩ h2
    rw [hrest]
    show (pressedStep d s v t).1 :: edgeRun v rest =
      (decide (s.lastState = 1 ∧ v = 0)) :: edgeRun v rest
    congr 1
    unfold pressedStep
    split
    · next hc =>
      simp [hc.1, hc.2.1]
    · next hc =>
      have hnot : ¬(s.lastState = 1 ∧ v = 0) := fun hx => hc ⟨hx.2, hx.1, h1⟩
      simp [hnot]

/-- Witness for the amended C3 theorem at a concrete trace. -/
theorem poll_spaced_edge_detection_witness :
    spacedB 50 (0 : Int) [(0, 60), (0, 120), (1, 180), (0, 240)] = true ∧
    pressedRun 50 ⟨1, 0⟩ [(0, 60), (0, 120), (1, 180), (0, 240)] =
      edgeRun 1 [(0, 60), (0, 120), (1, 180), (0, 240)] :=
  ⟨by decide, poll_spaced_edge_detection 50 ⟨1, 0⟩ _ (by decide)⟩

/-- C4 (counterexample).
With debounce window 50 and state `⟨1, 0⟩` (stable high, last
transition at t = 0), a poll at t = 10 reading low is inside the
debounce window (10 - 0 < 50) and yet changes the stored stable level
to 0 and the stored time to 10: `_pressed` writes both fields on every
call, so the claimed invariant fails. -/
theorem stable_level_invariant_cex :
    (pressedStep 50 ⟨1, 0⟩ 0 10).2 = ⟨0, 10⟩ ∧
    ¬((10 : Int) - 0 ≥ 50) ∧ (⟨0, 10⟩ : BtnState) ≠ ⟨1, 0⟩ := by
  refine ⟨by decide, by decide, by decide⟩

/-- C4 (amended).
For every button, every poll unconditionally overwrites the stored
level with the raw reading and the stored transition time with the
current time; the debounce window only gates whether the poll reports
a press, never whether the state updates. -/
theorem pressed_state_always_updates (d : Int) (s : BtnState) (v : Nat) (t : Int) :
    (pressedStep d s v t).2 = ⟨v, t⟩ ∧
    ((pressedStep d s v t).1 = true →
      v = 0 ∧ s.lastState = 1 ∧ t - s.lastTime ≥ d) := by
  constructor
  · exact pressedStep_snd d s v t
  · intro h
    unfold pressedStep at h
    by_cases hc : v = 0 ∧ s.lastState = 1 ∧ t - s.lastTime ≥ d
    · exact hc
    · rw [if_neg hc] at h
      exact absurd h (by simp)

/-- Witness for the amended C4 theorem at a concrete input. -/
theorem pressed_state_always_updates_witness :
    (pressedStep 50 ⟨1, 0⟩ 0 60).2 = ⟨0, 60⟩ ∧
    ((0 : Nat) = 0 ∧ (1 : Nat) = 1 ∧ (60 : Int) - 0 ≥ 50) :=
  ⟨(pressed_state_always_updates 50 ⟨1, 0⟩ 0 60).1,
    (pressed_state_always_updates 50 ⟨1, 0⟩ 0 60).2 (by decide)⟩

end Pixiboo

namespace Pixiboo

/-! ## Shake detector theorems -/

/-- Helper: unfold one `shakeRun` step. -/
theorem shakeRun_cons (s : ShakeState) (p : Sample) (rest : List Sample) :
    shakeRun s (p :: rest) = (shakeStep s p).1 :: shakeRun (shakeStep s p).2 rest := rfl

/-- Helper: branch form of `shakeStep`. -/
theorem shakeStep_eq (s : ShakeState) (p : Sample) :
    shakeStep s p =
      if p.x * p.x + p.y * p.y + p.z * p.z > s.threshold * s.threshold ∧
          p.t - s.lastShakeTime ≥ s.debounceMs then
        (true, { s with detected := false, lastShakeTime := p.t })
      else (s.detected, { s with detected := false }) := by
  simp only [shakeStep]
  split <;> rfl

/-- Helper: every `was_shaken` call clears the flag and leaves the
threshold and debounce window unchanged. -/
theorem shakeStep_preserve (s : ShakeState) (p : Sample) :
    ((shakeStep s p).2).detected = false ∧
    ((shakeStep s p).2).debounceMs = s.debounceMs ∧
    ((shakeStep s p).2).threshold = s.threshold := by
  rw [shakeStep_eq]
  split <;> exact ⟨rfl, rfl, rfl⟩

/-- Helper: with a nonnegative debounce window, `_last_shake_time`
never decreases. -/
theorem shakeStep_last_mono (s : ShakeState) (p : Sample) (hdeb : 0 ≤ s.debounceMs) :
    s.lastShakeTime ≤ ((shakeStep s p).2).lastShakeTime := by
  rw [shakeStep_eq]
  split
  · next hc =>
    show s.lastShakeTime ≤ p.t
    omega
  · next =>
    exact le_refl _

/-- C5 (counterexample).
On the synthetic sequence (10 samples at magnitude 0, one spike at
twice the threshold, then 0 again) exactly one `was_shaken` call
returns true, but it is the call that processes the spike sample
(index 10), not the first call strictly after it: index 11 returns
false.  `was_shaken` sets `_shake_detected` and then immediately reads
and clears it in the same call, so delivery is immediate, not
deferred. -/
theorem was_shaken_deferred_cex :
    shakeRun shakeInit spikeTrace =
      [false, false, false, false, false, false, false, false, false, false,
       true, false] ∧
    (shakeRun shakeInit spikeTrace).getD 11 false = false := by
  constructor
  · decide
  · decide

/-- C5 (amended).
Each `was_shaken` call consumes and resets the flag it may have just
set, so on the synthetic spike sequence exactly one call returns true,
and it is the call that processes the spike sample itself. -/
theorem was_shaken_spike_call :
    (shakeRun shakeInit spikeTrace).count true = 1 ∧
    (shakeRun shakeInit spikeTrace).getD 10 false = true := by
  constructor
  · decide
  · decide

/-- Helper: a true result is always at least one debounce window after
the `_last_shake_time` of the starting state. -/
theorem shake_true_ge (samples : List Sample) : ∀ (s : ShakeState) (j : Nat),
    s.detected = false → 0 ≤ s.debounceMs →
    (shakeRun s samples).getD j false = true →
    (samples.getD j ⟨0, 0, 0, 0⟩).t - s.lastShakeTime ≥ s.debounceMs := by
  induction samples with
  | nil =>
    intro s j _ _ h
    simp [shakeRun] at h
  | cons p rest ih =>
    intro s j hdet hdeb h
    rw [shakeRun_cons] at h
    cases j with
    | zero =>
      simp only [List.getD_cons_zero] at h ⊢
      rw [shakeStep_eq] at h
      by_cases hc : p.x * p.x + p.y * p.y + p.z * p.z > s.threshold * s.threshold ∧
          p.t - s.lastShakeTime ≥ s.debounceMs
      · exact hc.2
      · rw [if_neg hc] at h
        exact absurd h (by simp [hdet])
    | succ j =>
      simp only [List.getD_cons_succ] at h ⊢
      have hpres := shakeStep_preserve s p
      have hdeb2 : 0 ≤ ((shakeStep s p).2).debounceMs := by
        rw [hpres.2.1]; exact hdeb
      have h2 := ih (shakeStep s p).2 j hpres.1 hdeb2 h
      rw [hpres.2.1] at h2
      have hmono := shakeStep_last_mono s p hdeb
      omega

/-- C6.
Shake debouncing: any two `was_shaken` calls that both return true are
separated by at least the debounce window (`_shake_debounce_ms`,
default 500): a true result arms `_last_shake_time`, and a later call
can only arm (and hence report) a new shake once `debounce_ms` has
elapsed since the last armed shake.  Consequently, for every pair of
above-threshold spikes whose call timestamps are separated by less
than the window, the `was_shaken` calls spanning both spikes return
true at most once in total. -/
theorem shake_debounce_separation (samples : List Sample) : ∀ (s : ShakeState) (k l : Nat),
    s.detected = false → 0 ≤ s.debounceMs → k < l →
    (shakeRun s samples).getD k false = true →
    (shakeRun s samples).getD l false = true →
    (samples.getD l ⟨0, 0, 0, 0⟩).t - (samples.getD k ⟨0, 0, 0, 0⟩).t ≥ s.debounceMs := by
  induction samples with
  | nil =>
    intro s k l _ _ _ hk _
    simp [shakeRun] at hk
  | cons p rest ih =>
    intro s k l hdet hdeb hkl hk hl
    rw [shakeRun_cons] at hk hl
    obtain ⟨l2, rfl⟩ : ∃ l2, l = l2 + 1 := ⟨l - 1, by omega⟩
    simp only [List.getD_cons_succ] at hl ⊢
    cases k with
    | zero =>
      simp only [List.getD_cons_zero] at hk ⊢
      rw [shakeStep_eq] at hk hl
      by_cases hc : p.x * p.x + p.y * p.y + p.z * p.z > s.threshold * s.threshold ∧
          p.t - s.lastShakeTime ≥ s.debounceMs
      · rw [if_pos hc] at hl
        have h2 := shake_true_ge rest
          ({ s with detected := false, lastShakeTime := p.t }) l2 rfl hdeb hl
        exact h2
      · rw [if_neg hc] at hk
        exact absurd hk (by simp [hdet])
    | succ k2 =>
      simp only [List.getD_cons_succ] at hk ⊢
      have hpres := shakeStep_preserve s p
      have hdeb2 : 0 ≤ ((shakeStep s p).2).debounceMs := by
        rw [hpres.2.1]; exact hdeb
      have h2 := ih (shakeStep s p).2 k2 l2 hpres.1 hdeb2 (by omega) hk hl
      rw [hpres.2.1] at h2
      exact h2

/-- Witness for the C6 theorem: two spikes 600 ms apart both report,
and the theorem instantiated there yields the 500 ms separation. -/
theorem shake_debounce_separation_witness :
    (shakeRun shakeInit [⟨3000, 0, 0, 600⟩, ⟨3000, 0, 0, 1200⟩]).getD 0 false = true ∧
    (shakeRun shakeInit [⟨3000, 0, 0, 600⟩, ⟨3000, 0, 0, 1200⟩]).getD 1 false = true ∧
    (([⟨3000, 0, 0, 600⟩, ⟨3000, 0, 0, 1200⟩] : List Sample).getD 1 ⟨0, 0, 0, 0⟩).t -
        (([⟨3000, 0, 0, 600⟩, ⟨3000, 0, 0, 1200⟩] : List Sample).getD 0 ⟨0, 0, 0, 0⟩).t ≥
      shakeInit.debounceMs :=
  ⟨by decide, by decide,
    shake_debounce_separation [⟨3000, 0, 0, 600⟩, ⟨3000, 0, 0, 1200⟩] shakeInit 0 1
      (by decide) (by decide) (by decide) (by decide) (by decide)⟩

end Pixiboo

namespace Pixiboo

/-! ## Device detection theorems -/

/-- C7.
Device detection follows the fixed priority chain with first match
winning: any non-empty scan containing 0x29 selects the BNO055 kind
(at 0x29, or at 0x28 when that higher-priority address is also
present) and therefore runs the BNO055 init protocol; a non-empty scan
containing none of the five known addresses fails with the
unsupported-device error; an empty scan fails with the distinct
no-device-found error. -/
theorem detect_imu_priority (devices1 devices2 : List Nat)
    (h1 : BNO055_ADDR_ALT ∈ devices1)
    (h2 : devices2 ≠ [])
    (h3 : ∀ a ∈ devices2,
      a ∉ [BNO055_ADDR, BNO055_ADDR_ALT, MPU6050_ADDR, MPU6050_ADDR_ALT, LSM6DS3_ADDR]) :
    (∃ a, detectImu devices1 = .ok (a, ImuType.bno055)) ∧
    detectImu devices2 = .error DetectError.unknownDevice ∧
    detectImu [] = .error DetectError.noDeviceFound ∧
    DetectError.unknownDevice ≠ DetectError.noDeviceFound := by
  refine ⟨?_, ?_, rfl, by decide⟩
  · have hne : devices1 ≠ [] := by
      intro hemp
      rw [hemp] at h1
      exact absurd h1 (List.not_mem_nil _)
    unfold detectImu
    rw [if_neg hne]
    by_cases h28 : BNO055_ADDR ∈ devices1
    · rw [if_pos h28]
      exact ⟨BNO055_ADDR, rfl⟩
    · rw [if_neg h28, if_pos h1]
      exact ⟨BNO055_ADDR_ALT, rfl⟩
  · have n28 : BNO055_ADDR ∉ devices2 := fun hx => h3 _ hx (by decide)
    have n29 : BNO055_ADDR_ALT ∉ devices2 := fun hx => h3 _ hx (by decide)
    have n68 : MPU6050_ADDR ∉ devices2 := fun hx => h3 _ hx (by decide)
    have n69 : MPU6050_ADDR_ALT ∉ devices2 := fun hx => h3 _ hx (by decide)
    have n6A : LSM6DS3_ADDR ∉ devices2 := fun hx => h3 _ hx (by decide)
    unfold detectImu
    rw [if_neg h2, if_neg n28, if_neg n29, if_neg n68, if_neg n69, if_neg n6A]

/-- Witness for the C7 theorem: a scan returning {0x6A, 0x29} selects
BNO055 (not LSM6DS3), and a scan returning only 0x10 is unsupported. -/
theorem detect_imu_priority_witness :
    ((∃ a, detectImu [0x6A, 0x29] = .ok (a, ImuType.bno055)) ∧
      detectImu [0x10] = .error DetectError.unknownDevice ∧
      detectImu [] = .error DetectError.noDeviceFound ∧
      DetectError.unknownDevice ≠ DetectError.noDeviceFound) :=
  detect_imu_priority [0x6A, 0x29] [0x10] (by decide) (by decide) (by decide)

end Pixiboo

namespace Pixiboo

/-! ## Public string-keyed interface theorems -/

/-- C9.
The `is_pressed` query is side-effect free on debounce state: running
any interleaving of polled press checks and `is_pressed` calls gives
exactly the same poll results and the same final
`_last_state`/`_last_time` maps as the run with the `is_pressed` calls
removed; and for each of the three valid names, `is_pressed` returns
true exactly when the pin level reads 0 (active-low), never failing. -/
theorem is_pressed_frame (d : Int) (s : PollSt) (ops : List BOp) :
    (runBOps d s (ops.filter isPollOp)).1 = selectPoll ops (runBOps d s ops).1 ∧
    (runBOps d s (ops.filter isPollOp)).2 = (runBOps d s ops).2 ∧
    (∀ (name : String) (lv : Nat) (s2 : PollSt),
      (runBOps d s2 [BOp.isP name lv]).2 = s2) ∧
    (∀ lv : Nat,
      (isPressedReads ("left") lv).1 = decide (lv = 0) ∧
      (isPressedReads ("center") lv).1 = decide (lv = 0) ∧
      (isPressedReads ("right") lv).1 = decide (lv = 0)) := by
  refine ⟨?_, ?_, ?_, ?_⟩
  · induction ops generalizing s with
    | nil => rfl
    | cons op rest ih =>
      cases op with
      | press b v t =>
        simp only [List.filter_cons, isPollOp, if_pos, runBOps, selectPoll]
        exact congrArg _ (ih _)
      | isP n lv =>
        simp only [List.filter_cons, isPollOp, runBOps, selectPoll]
        exact ih s
  · induction ops generalizing s with
    | nil => rfl
    | cons op rest ih =>
      cases op with
      | press b v t =>
        simp only [List.filter_cons, isPollOp, runBOps]
        exact ih _
      | isP n lv =>
        simp only [List.filter_cons, isPollOp, runBOps]
        exact ih s
  · intro name lv s2
    rfl
  · intro lv
    exact ⟨rfl, rfl, rfl⟩

/-- C10.
Unknown button names are rejected silently: for every name outside
{left, center, right}, `is_pressed` returns false without reading any
pin, and `on_button_pressed` returns without appending the callback and
without arming the interrupt path, leaving the registration state
unchanged. -/
theorem unknown_button_rejected {κ : Type} (s : RegSt κ) (button : String) (cb : κ)
    (lv : Nat) (h : button ∉ btnNames) :
    isPressedReads button lv = (false, []) ∧
    onButtonPressed s button cb = s := by
  constructor
  · unfold isPressedReads
    rw [if_neg h]
  · unfold onButtonPressed
    rw [if_neg h]

/-- Witness for the C10 theorem at the unknown name `up`. -/
theorem unknown_button_rejected_witness :
    (("up" : String) ∉ btnNames) ∧
    (isPressedReads ("up") 0 = (false, []) ∧
      onButtonPressed (⟨[], [], [], false, true⟩ : RegSt Nat) ("up") 7 =
        ⟨[], [], [], false, true⟩) :=
  ⟨by decide, unknown_button_rejected _ ("up") 7 0 (by decide)⟩

end Pixiboo

namespace Pixiboo

/-! ## Callback dispatch theorems -/

/-- Helper: the dispatch loop over a concatenation runs the second part
from the world produced by the first and concatenates the reports. -/
theorem runCallbacks_append {ω ε : Type} (l1 : List (Cb ω ε)) : ∀ (w : ω) (l2 : List (Cb ω ε)),
    runCallbacks w (l1 ++ l2) =
      ((runCallbacks (runCallbacks w l1).1 l2).1,
        (runCallbacks w l1).2 ++ (runCallbacks (runCallbacks w l1).1 l2).2) := by
  induction l1 with
  | nil =>
    intro w l2
    rfl
  | cons c rest ih =>
    intro w l2
    simp only [List.cons_append, runCallbacks, List.append_eq]
    rw [ih (c w).1 l2]
    simp [List.append_assoc]

/-- Helper: suppressing exceptions never changes the world a dispatch
loop produces. -/
theorem runCallbacks_silence_fst {ω ε : Type} (l : List (Cb ω ε)) : ∀ w : ω,
    (runCallbacks w (l.map silence)).1 = (runCallbacks w l).1 := by
  induction l with
  | nil => intro w; rfl
  | cons c rest ih =>
    intro w
    simp only [List.map_cons, runCallbacks, silence]
    exact ih (c w).1

/-- Helper: one `update` button step is unaffected by suppressing the
exceptions of its callbacks. -/
theorem updateButton_silence {ω ε : Type} (d : Int) (bs : BtnState) (read : Nat × Int)
    (cbs : List (Cb ω ε)) (w : ω) :
    updateButton d bs read (cbs.map silence) w = updateButton d bs read cbs w := by
  simp only [updateButton, runCallbacks_silence_fst]

/-- Helper: the `except Exception: pass` loop of `update` never
reports anything. -/
theorem runCallbacksPass_snd {ω ε : Type} (l : List (Cb ω ε)) : ∀ w : ω,
    (runCallbacksPass w l).2 = [] := by
  induction l with
  | nil => intro w; rfl
  | cons c rest ih => intro w; exact ih (c w).1

/-- C8 (amended).
Callback failure isolation at the three dispatch boundaries: at each
boundary an exception raised by one callback is caught, the remaining
callbacks for the event still run, and future events still fire, but
reporting differs by boundary — the interrupt handler and the shake
monitoring loop report the caught exception, while the polled `update`
dispatch swallows it silently (`except Exception: pass`).  Precisely:
dispatching `pre ++ c :: post` runs `post` from the world `c` produced
and appends all reports; the exception of `c` appears in the reports
of that loop, hence (outside the debounce window) in those of the
interrupt handler, and in the shake-loop reports; the final world, the
recorded `_last_time`, and the `update` debounce states and world are
all unchanged when the exception of `c` is suppressed; and the report
stream of the `update` dispatch is always empty. -/
theorem callback_isolation {ω ε : Type} (w : ω) (pre post : List (Cb ω ε)) (c : Cb ω ε)
    (d lt now : Int) (shaken : Bool) (s : PollSt) (reads : BtnName → Nat × Int)
    (cbs : BtnName → List (Cb ω ε)) (bs : BtnState) (read : Nat × Int)
    (ucbs : List (Cb ω ε)) (m : ε)
    (hm : (c (runCallbacks w pre).1).2 = some m)
    (hm0 : (c w).2 = some m)
    (hwin : ¬ now - lt < d) :
    runCallbacks w (pre ++ c :: post) =
      ((runCallbacks (c (runCallbacks w pre).1).1 post).1,
        (runCallbacks w pre).2 ++ ((c (runCallbacks w pre).1).2.toList ++
          (runCallbacks (c (runCallbacks w pre).1).1 post).2)) ∧
    m ∈ (runCallbacks w (pre ++ c :: post)).2 ∧
    (runCallbacks w (pre ++ c :: post)).1 =
      (runCallbacks w (pre ++ silence c :: post)).1 ∧
    (irqHandler d lt (pre ++ c :: post) now w).1 =
      (irqHandler d lt (pre ++ silence c :: post) now w).1 ∧
    (irqHandler d lt (pre ++ c :: post) now w).2.1 =
      (irqHandler d lt (pre ++ silence c :: post) now w).2.1 ∧
    (irqHandler d lt (pre ++ c :: post) now w).2.2 =
      (runCallbacks w (pre ++ c :: post)).2 ∧
    m ∈ (shakeLoopBody true c w).2 ∧
    updateDispatch d s reads (fun b => (cbs b).map silence) w =
      updateDispatch d s reads cbs w ∧
    (shakeLoopBody shaken (silence c) w).1 = (shakeLoopBody shaken c w).1 ∧
    (updateButtonRep d bs read ucbs w).2.2 = [] := by
  have hdecomp : runCallbacks w (pre ++ c :: post) =
      ((runCallbacks (c (runCallbacks w pre).1).1 post).1,
        (runCallbacks w pre).2 ++ ((c (runCallbacks w pre).1).2.toList ++
          (runCallbacks (c (runCallbacks w pre).1).1 post).2)) := by
    rw [runCallbacks_append]
    simp only [runCallbacks]
  have hworld : (runCallbacks w (pre ++ c :: post)).1 =
      (runCallbacks w (pre ++ silence c :: post)).1 := by
    rw [runCallbacks_append, runCallbacks_append]
    simp only [runCallbacks, silence]
  refine ⟨hdecomp, ?_, hworld, ?_, ?_, ?_, ?_, ?_, ?_, ?_⟩
  · rw [hdecomp]
    simp [hm]
  · unfold irqHandler
    split <;> rfl
  · unfold irqHandler
    split
    · rfl
    · exact hworld
  · unfold irqHandler
    rw [if_neg hwin]
  · simp [shakeLoopBody, hm0]
  · simp only [updateDispatch, updateButton_silence]
  · unfold shakeLoopBody
    split <;> rfl
  · simp only [updateButtonRep]
    split
    · exact runCallbacksPass_snd _ _
    · rfl

end Pixiboo

namespace Pixiboo

/-- Concrete callbacks for exercising the dispatch boundaries on a
counter world: increment, increment by 10 and raise error 5, and
increment by 100. -/
def cbInc : Cb Nat Nat := fun n => (n + 1, none)

def cbBoom : Cb Nat Nat := fun n => (n + 10, some 5)

def cbBig : Cb Nat Nat := fun n => (n + 100, none)

/-- C8 (counterexample).
At the polled update dispatch an exception is caught but never
reported: `Buttons.update` catches with `except Exception: pass`.
Concretely, a poll that reports a press (state ⟨1, 0⟩, level 0 read at
t = 60) dispatches `cbBoom`, whose world update runs (0 becomes 10)
and which raises error 5, yet the report stream of the dispatch is
empty and error 5 is never reported — refuting the original
"caught and reported at every dispatch boundary". -/
theorem update_swallows_cex :
    (cbBoom 0).2 = some 5 ∧
    updateButtonRep 50 ⟨1, 0⟩ (0, 60) [cbBoom] 0 = (⟨0, 60⟩, 10, ([] : List Nat)) ∧
    (5 : Nat) ∉ (updateButtonRep 50 ⟨1, 0⟩ (0, 60) [cbBoom] 0).2.2 := by
  refine ⟨by decide, by decide, by decide⟩

/-- Witness for the amended C8 theorem on a concrete world and
callbacks. -/
theorem callback_isolation_witness :
    (cbBoom (runCallbacks 0 [cbInc]).1).2 = some 5 ∧
    (cbBoom 0).2 = some 5 ∧
    ¬((100 : Int) - 0 < 50) ∧
    (runCallbacks 0 ([cbInc] ++ cbBoom :: [cbBig]) =
      ((runCallbacks (cbBoom (runCallbacks 0 [cbInc]).1).1 [cbBig]).1,
        (runCallbacks 0 [cbInc]).2 ++ ((cbBoom (runCallbacks 0 [cbInc]).1).2.toList ++
          (runCallbacks (cbBoom (runCallbacks 0 [cbInc]).1).1 [cbBig]).2)) ∧
    5 ∈ (runCallbacks 0 ([cbInc] ++ cbBoom :: [cbBig])).2 ∧
    (runCallbacks 0 ([cbInc] ++ cbBoom :: [cbBig])).1 =
      (runCallbacks 0 ([cbInc] ++ silence cbBoom :: [cbBig])).1 ∧
    (irqHandler 50 0 ([cbInc] ++ cbBoom :: [cbBig]) 100 0).1 =
      (irqHandler 50 0 ([cbInc] ++ silence cbBoom :: [cbBig]) 100 0).1 ∧
    (irqHandler 50 0 ([cbInc] ++ cbBoom :: [cbBig]) 100 0).2.1 =
      (irqHandler 50 0 ([cbInc] ++ silence cbBoom :: [cbBig]) 100 0).2.1 ∧
    (irqHandler 50 0 ([cbInc] ++ cbBoom :: [cbBig]) 100 0).2.2 =
      (runCallbacks 0 ([cbInc] ++ cbBoom :: [cbBig])).2 ∧
    5 ∈ (shakeLoopBody true cbBoom 0).2 ∧
    updateDispatch 50 ⟨⟨1, 0⟩, ⟨1, 0⟩, ⟨1, 0⟩⟩ (fun _ => (1, 60))
        (fun b => ((fun _ => [cbInc]) b).map silence) 0 =
      updateDispatch 50 ⟨⟨1, 0⟩, ⟨1, 0⟩, ⟨1, 0⟩⟩ (fun _ => (1, 60)) (fun _ => [cbInc]) 0 ∧
    (shakeLoopBody true (silence cbBoom) 0).1 = (shakeLoopBody true cbBoom 0).1 ∧
    (updateButtonRep 50 ⟨1, 0⟩ (1, 60) [cbInc] 0).2.2 = []) :=
  ⟨rfl, rfl, by decide,
    callback_isolation 0 [cbInc] [cbBig] cbBoom 50 0 100 true ⟨⟨1, 0⟩, ⟨1, 0⟩, ⟨1, 0⟩⟩
      (fun _ => (1, 60)) (fun _ => [cbInc]) ⟨1, 0⟩ (1, 60) [cbInc] 5 rfl rfl (by decide)⟩

end Pixiboo
